import Mathlib

/-!
Verification development for the FIRE-calculator simulation core
(`src/lib/simulation.ts`).  The TypeScript source is shallowly embedded:

* machine floating-point arithmetic is modelled by real arithmetic (`ℝ`);
* the stateful random closure `random: () => number` is modelled by a
  function `ℕ → ℝ` giving the value of the k-th call (0-indexed);
* the Mulberry32 generator (`createSeededRandom`) works on 32-bit patterns,
  modelled as `Nat` with explicit `% 2^32`;
* the JavaScript default parameter `seed: number = Date.now()` is modelled
  by an explicit `Option ℕ` argument plus a `dateNow : ℕ` input that stands
  for the ambient wall-clock value consumed when the seed is omitted;
* code that throws (`simulations[0]` on an empty array) returns `Option`.
-/

namespace FireCalc

/-- 2^32, the modulus of all 32-bit operations in `createSeededRandom`. -/
def W32 : Nat := 4294967296

/-- The bit-mixing of one call of the Mulberry32 closure
(`simulation.ts` lines 8-10), acting on the already-advanced 32-bit state.
`Math.imul` is multiplication mod 2^32, `>>>` is an unsigned shift on the
32-bit pattern, `^`/`|` are bitwise xor/or on the pattern; the intermediate
sum `t + Math.imul(...)` is coerced back to 32 bits by the following xor. -/
def mulberryMix (s : Nat) : Nat :=
  let t1 := ((s ^^^ (s >>> 15)) * (s ||| 1)) % W32
  let m := ((t1 ^^^ (t1 >>> 7)) * (t1 ||| 61)) % W32
  let t2 := ((t1 + m) % W32) ^^^ t1
  t2 ^^^ (t2 >>> 14)

/-- The 32-bit state of `createSeededRandom seed` when making its k-th call
(0-indexed): each call first advances the state by `0x6D2B79F5` mod 2^32
(`simulation.ts` line 7). -/
def mulberryState (seed k : Nat) : Nat :=
  (seed + (k + 1) * 0x6D2B79F5) % W32

/-- The raw 32-bit output of the k-th call of `createSeededRandom seed`. -/
def mulberryNat (seed k : Nat) : Nat :=
  mulberryMix (mulberryState seed k)

/-- The k-th value in `[0,1)` produced by `createSeededRandom seed`
(`simulation.ts` line 10: the 32-bit output divided by 4294967296). -/
noncomputable def mulberryStream (seed : Nat) : ℕ → ℝ :=
  fun k => (mulberryNat seed k : ℝ) / (W32 : ℝ)

/-- `SimulationParams` (`simulation.ts` lines 14-21).  `years` is declared
`int > 0` in the data model, so it is embedded as `ℕ`. -/
structure SimulationParams where
  startingAssets : ℝ
  annualReturn : ℝ
  initialContribution : ℝ
  contributionGrowthRate : ℝ
  inflationRate : ℝ
  years : ℕ

/-- `YearData` (`simulation.ts` lines 23-34). -/
structure YearData where
  year : ℕ
  startingBalance : ℝ
  contribution : ℝ
  returnRate : ℝ
  inflationRate : ℝ
  growth : ℝ
  endingBalance : ℝ
  cumulativeInflation : ℝ
  realEndingBalance : ℝ

/-- `SimulationResult` (`simulation.ts` lines 36-41). -/
structure SimulationResult where
  yearlyData : List YearData
  finalBalance : ℝ
  totalContributions : ℝ
  totalGrowth : ℝ

/-- The Box-Muller transform as written in the source
(`simulation.ts` line 64, identically line 107):
`z = sqrt(-2 * log(u1)) * cos(2 * pi * u2)`.  The draw `u1` is fed to the
logarithm directly, with no clamping. -/
noncomputable def boxMullerZ (u1 u2 : ℝ) : ℝ :=
  Real.sqrt (-2 * Real.log u1) * Real.cos (2 * Real.pi * u2)

/-- The clamped Box-Muller transform that §7 of the specification prescribes
(`u1` floored to a small positive `eps` before the logarithm).  Stated from
the spec's words, to be compared with `boxMullerZ` from the source. -/
noncomputable def boxMullerZClamped (eps u1 u2 : ℝ) : ℝ :=
  Real.sqrt (-2 * Real.log (max eps u1)) * Real.cos (2 * Real.pi * u2)

/-- The list `logReturns` built by the sampling loop of
`generateRandomizedReturns` (`simulation.ts` lines 59-69): period `i`
consumes draws `2*i` and `2*i+1` of the random source. -/
noncomputable def rawLogReturns (annualReturn : ℝ) (years : ℕ)
    (random : ℕ → ℝ) (volatility : ℝ) : List ℝ :=
  (List.range years).map (fun i =>
    Real.log (1 + annualReturn) +
      volatility * boxMullerZ (random (2 * i)) (random (2 * i + 1)))

/-- The list `adjustedLogReturns` (`simulation.ts` lines 71-76):
`adjustment = (totalTargetLogReturn - currentSum) / years` added to every
entry, with `totalTargetLogReturn = log(1+annualReturn) * years`. -/
noncomputable def adjustedLogReturns (annualReturn : ℝ) (years : ℕ)
    (random : ℕ → ℝ) (volatility : ℝ) : List ℝ :=
  let logReturns := rawLogReturns annualReturn years random volatility
  let adjustment :=
    (Real.log (1 + annualReturn) * years - logReturns.sum) / years
  logReturns.map (fun r => r + adjustment)

/-- `generateRandomizedReturns` (`simulation.ts` lines 49-80); the returned
rates are `exp(logR) - 1` over the adjusted log returns.  The source's
default `volatility = 0.30` is passed explicitly at the call site. -/
noncomputable def generateRandomizedReturns (annualReturn : ℝ) (years : ℕ)
    (random : ℕ → ℝ) (volatility : ℝ) : List ℝ :=
  (adjustedLogReturns annualReturn years random volatility).map
    (fun logR => Real.exp logR - 1)

/-- The list `logInflations` of `generateRandomizedInflation`
(`simulation.ts` lines 103-113); same sampling loop as the returns. -/
noncomputable def rawLogInflations (inflationRate : ℝ) (years : ℕ)
    (random : ℕ → ℝ) (volatility : ℝ) : List ℝ :=
  (List.range years).map (fun i =>
    Real.log (1 + inflationRate) +
      volatility * boxMullerZ (random (2 * i)) (random (2 * i + 1)))

/-- The list `adjustedLogInflations` (`simulation.ts` lines 115-120). -/
noncomputable def adjustedLogInflations (inflationRate : ℝ) (years : ℕ)
    (random : ℕ → ℝ) (volatility : ℝ) : List ℝ :=
  let logInflations := rawLogInflations inflationRate years random volatility
  let adjustment :=
    (Real.log (1 + inflationRate) * years - logInflations.sum) / years
  logInflations.map (fun r => r + adjustment)

/-- `generateRandomizedInflation` (`simulation.ts` lines 88-125): the zero
shortcut at line 95 returns `years` zeros; otherwise each adjusted log rate
is converted by `max(0, exp(logI) - 1)` (line 124).  The source's default
`volatility = 0.015` is passed explicitly at the call site. -/
noncomputable def generateRandomizedInflation (inflationRate : ℝ) (years : ℕ)
    (random : ℕ → ℝ) (volatility : ℝ) : List ℝ :=
  if inflationRate = 0 then List.replicate years 0
  else
    (adjustedLogInflations inflationRate years random volatility).map
      (fun logI => max 0 (Real.exp logI - 1))

/-- The loop-carried state of the year loop in `runSimulation`
(`simulation.ts` lines 137-141). -/
structure SimState where
  balance : ℝ
  contribution : ℝ
  totalContributions : ℝ
  totalGrowth : ℝ
  cumulativeInflation : ℝ

/-- One iteration of the year loop (`simulation.ts` lines 143-177):
contribution added before growth, growth applied, cumulative inflation
updated, the year's record produced, and the contribution grown for the
next year. -/
noncomputable def simStep (contributionGrowthRate : ℝ) (st : SimState)
    (yr : ℕ) (yearReturn yearInflation : ℝ) : SimState × YearData :=
  let startingBalance := st.balance
  let balance1 := st.balance + st.contribution
  let totalContributions := st.totalContributions + st.contribution
  let growth := balance1 * yearReturn
  let balance2 := balance1 + growth
  let totalGrowth := st.totalGrowth + growth
  let cumulativeInflation := st.cumulativeInflation * (1 + yearInflation)
  let realEndingBalance := balance2 / cumulativeInflation
  (⟨balance2, st.contribution * (1 + contributionGrowthRate),
    totalContributions, totalGrowth, cumulativeInflation⟩,
   ⟨yr + 1, startingBalance, st.contribution, yearReturn, yearInflation,
    growth, balance2, cumulativeInflation, realEndingBalance⟩)

/-- The year loop of `runSimulation`, folded over the per-year
(return, inflation) pairs; `yr` is the 0-based loop index `i`. -/
noncomputable def simLoop (contributionGrowthRate : ℝ) :
    List (ℝ × ℝ) → ℕ → SimState → SimState × List YearData
  | [], _, st => (st, [])
  | p :: rest, yr, st =>
      let s := simStep contributionGrowthRate st yr p.1 p.2
      let t := simLoop contributionGrowthRate rest (yr + 1) s.1
      (t.1, s.2 :: t.2)

/-- `runSimulation` (`simulation.ts` lines 130-185).  The returns sampler
consumes draws `0 .. 2*years-1` of the shared random closure, so the
inflation sampler sees the closure shifted by `2*years` (its own draw `k`
is the closure's call `2*years + k`); both lists always have length
`years`, so zipping them reproduces the source loop exactly. -/
noncomputable def runSimulation (params : SimulationParams)
    (random : ℕ → ℝ) : SimulationResult :=
  let randomReturns :=
    generateRandomizedReturns params.annualReturn params.years random 0.30
  let randomInflations :=
    generateRandomizedInflation params.inflationRate params.years
      (fun k => random (2 * params.years + k)) 0.015
  let out := simLoop params.contributionGrowthRate
    (randomReturns.zip randomInflations) 0
    ⟨params.startingAssets, params.initialContribution, 0, 0, 1⟩
  ⟨out.2, out.1.balance, out.1.totalContributions, out.1.totalGrowth⟩

/-- The body of the Monte-Carlo loop (`simulation.ts` lines 196-203):
path `i` runs `runSimulation` on a fresh generator seeded with `seed + i`. -/
noncomputable def runMonteCarloFromSeed (params : SimulationParams)
    (numSimulations : ℕ) (seed : ℕ) : List SimulationResult :=
  (List.range numSimulations).map
    (fun i => runSimulation params (mulberryStream (seed + i)))

/-- `runMonteCarloSimulation` (`simulation.ts` lines 191-204).  The source
signature is `seed: number = Date.now()`: the default expression is
evaluated inside the function when the caller omits the argument, which is
modelled by `seedOpt : Option ℕ` together with `dateNow`, the ambient
wall-clock value read in that case. -/
noncomputable def runMonteCarloSimulation (params : SimulationParams)
    (numSimulations : ℕ) (seedOpt : Option ℕ) (dateNow : ℕ) :
    List SimulationResult :=
  runMonteCarloFromSeed params numSimulations (seedOpt.getD dateNow)

/-- Out-of-range placeholder for `yearlyData[year]`; the theorems about
`calculatePercentiles` carry hypotheses keeping every access in range,
where the embedding agrees with the source (JavaScript would throw on an
out-of-range access). -/
def dummyYear : YearData := ⟨0, 0, 0, 0, 0, 0, 0, 0, 0⟩

/-- The sorted cross-section `yearEndBalances` of one period
(`simulation.ts` lines 222-226): the chosen balance of every path, sorted
ascending (`.sort((a, b) => a - b)`). -/
noncomputable def sortedYearBalances (simulations : List SimulationResult)
    (useRealValues : Bool) (year : ℕ) : List ℝ :=
  List.insertionSort (· ≤ ·)
    (simulations.map (fun sim =>
      if useRealValues then (sim.yearlyData.getD year dummyYear).realEndingBalance
      else (sim.yearlyData.getD year dummyYear).endingBalance))

/-- The series built for one percentile (`simulation.ts` lines 219-230):
for each period, index `floor(percentile/100 * M)` of the sorted balances,
clamped to `M - 1`.  Over the reals,
`floor((percentile/100) * M) = percentile * M / 100` in `ℕ` division. -/
noncomputable def percentileSeries (simulations : List SimulationResult)
    (useRealValues : Bool) (years : ℕ) (percentile : ℕ) : List ℝ :=
  (List.range years).map (fun year =>
    let sorted := sortedYearBalances simulations useRealValues year
    sorted.getD (min (percentile * sorted.length / 100) (sorted.length - 1)) 0)

/-- `calculatePercentiles` (`simulation.ts` lines 210-236).  Line 215 reads
`simulations[0].yearlyData.length` unconditionally, which throws on an
empty input: embedded as `none`.  The insertion-ordered `Map` is embedded
as the association list in the order the keys are set. -/
noncomputable def calculatePercentiles (simulations : List SimulationResult)
    (percentiles : List ℕ) (useRealValues : Bool) :
    Option (List (ℕ × List ℝ)) :=
  match simulations with
  | [] => none
  | s0 :: _ =>
      some (percentiles.map (fun p =>
        (p, percentileSeries simulations useRealValues
              s0.yearlyData.length p)))

/-! ## Helper lemmas -/

lemma list_sum_map_add (l : List ℝ) (c : ℝ) :
    (l.map (fun x => x + c)).sum = l.sum + l.length * c := by
  induction l with
  | nil => simp
  | cons a tl ih =>
      simp [ih]
      ring

lemma list_prod_map_exp (l : List ℝ) :
    (l.map Real.exp).prod = Real.exp l.sum := by
  induction l with
  | nil => simp
  | cons a tl ih => simp [ih, Real.exp_add]

lemma list_prod_map_exp_pos (l : List ℝ) : 0 < (l.map Real.exp).prod := by
  rw [list_prod_map_exp]; exact Real.exp_pos _

lemma length_rawLogReturns (a : ℝ) (y : ℕ) (rdm : ℕ → ℝ) (v : ℝ) :
    (rawLogReturns a y rdm v).length = y := by
  simp [rawLogReturns]

lemma length_rawLogInflations (i : ℝ) (y : ℕ) (rdm : ℕ → ℝ) (v : ℝ) :
    (rawLogInflations i y rdm v).length = y := by
  simp [rawLogInflations]

/-- The adjustment step of the constrained sampler: after adding
`(T*y - sum)/y` to every entry of a length-`y` list, the entries sum to
`T*y` exactly. -/
lemma adjusted_sum (T : ℝ) (y : ℕ) (l : List ℝ) (hy : 0 < y)
    (hl : l.length = y) :
    (l.map (fun x => x + (T * y - l.sum) / y)).sum = T * y := by
  have hy' : (y : ℝ) ≠ 0 := Nat.cast_ne_zero.mpr hy.ne'
  rw [list_sum_map_add, hl]
  field_simp

/-- The compounded product of the rates `exp L - 1` over any length-`y`
adjusted list equals `exp T ^ y` where `T` is the per-period log target. -/
lemma adjusted_prod (T : ℝ) (y : ℕ) (l : List ℝ) (hy : 0 < y)
    (hl : l.length = y) :
    ((l.map (fun x => x + (T * y - l.sum) / y)).map
        (fun L => 1 + (Real.exp L - 1))).prod = Real.exp T ^ y := by
  have h1 : (fun L => 1 + (Real.exp L - 1)) = Real.exp := by
    funext L; ring
  rw [h1, list_prod_map_exp, adjusted_sum T y l hy hl, mul_comm,
    Real.exp_nat_mul]

/-! ## C1: exact geometric-mean property of the randomized returns -/

/-- C1: for every target return rate, every positive period count, every
volatility and every random source, the rates produced by
`generateRandomizedReturns` satisfy
`∏(1 + r_i) = (1 + annualReturn) ^ years` exactly in real arithmetic. -/
theorem C1_returns_product_exact (annualReturn volatility : ℝ) (years : ℕ)
    (random : ℕ → ℝ) (hy : 0 < years) (ha : -1 < annualReturn) :
    ((generateRandomizedReturns annualReturn years random volatility).map
        (fun r => 1 + r)).prod = (1 + annualReturn) ^ years := by
  have h0 : (0 : ℝ) < 1 + annualReturn := by linarith
  have key := adjusted_prod (Real.log (1 + annualReturn)) years
    (rawLogReturns annualReturn years random volatility) hy
    (length_rawLogReturns _ _ _ _)
  rw [Real.exp_log h0] at key
  simp only [generateRandomizedReturns, adjustedLogReturns]
  rw [List.map_map]
  exact key

/-- Witness for C1 at `annualReturn = 0`, `years = 1`, the constant-one
random source and volatility `0.3`. -/
theorem C1_returns_product_exact_witness :
    0 < 1 ∧ (-1 : ℝ) < 0 ∧
      ((generateRandomizedReturns 0 1 (fun _ => 1) 0.3).map
          (fun r => 1 + r)).prod = (1 + 0 : ℝ) ^ 1 :=
  ⟨by decide, by norm_num,
    C1_returns_product_exact 0 0.3 1 (fun _ => 1) (by decide) (by norm_num)⟩

/-! ## C2: determinism of the Monte-Carlo runner given an explicit seed -/

/-- C2: with an explicitly supplied integer base seed, the result of
`runMonteCarloSimulation` is a pure function of `(params, M, seed)`: two
calls with identical arguments (under arbitrary ambient clock values)
produce identical result sequences. -/
theorem C2_montecarlo_deterministic (params : SimulationParams)
    (numSimulations seed dateNow1 dateNow2 : ℕ) :
    runMonteCarloSimulation params numSimulations (some seed) dateNow1 =
      runMonteCarloSimulation params numSimulations (some seed) dateNow2 :=
  rfl

/-! ## C3: the uniform draw is NOT clamped before the logarithm -/

/-- C3 (refuting the claimed guard): there is no positive floor `eps < 1`
such that the transform at `simulation.ts` lines 62-64 (and identically
lines 105-107) equals the clamped transform prescribed by the spec: the
source takes `log(u1)` on the raw draw, so at `u1 = 0` it differs from
every clamped version (in IEEE arithmetic the unclamped transform yields a
non-finite `z` there). -/
theorem C3_no_clamp_before_log :
    ¬ ∃ eps : ℝ, 0 < eps ∧ eps < 1 ∧
      ∀ u1 u2 : ℝ, boxMullerZ u1 u2 = boxMullerZClamped eps u1 u2 := by
  rintro ⟨eps, he0, he1, h⟩
  have h00 := h 0 0
  have hL : boxMullerZ 0 0 = 0 := by
    simp [boxMullerZ]
  have hlog : Real.log (max eps 0) < 0 := by
    rw [max_eq_left he0.le]
    exact Real.log_neg he0 he1
  have hR : 0 < boxMullerZClamped eps 0 0 := by
    have hs : 0 < Real.sqrt (-2 * Real.log (max eps 0)) :=
      Real.sqrt_pos.mpr (by linarith)
    simpa [boxMullerZClamped] using hs
  rw [hL] at h00
  linarith [h00, hR]

/-! ## C4: the wall-clock default seed lives inside the core -/

/-- C4 (amended): when the caller supplies the seed explicitly, the
Monte-Carlo runner never consults the clock: its output factors through the
clock-free `runMonteCarloFromSeed`.  (The unamended claim fails because the
`Date.now()` default is evaluated inside `runMonteCarloSimulation` itself;
see the counterexample.) -/
theorem C4_explicit_seed_pure (params : SimulationParams)
    (numSimulations seed dateNow : ℕ) :
    runMonteCarloSimulation params numSimulations (some seed) dateNow =
      runMonteCarloFromSeed params numSimulations seed :=
  rfl

/-- C4 counterexample: with the seed argument omitted, the core itself
turns the ambient wall-clock value into the base seed — clock readings 0
and 1 make the core feed `runSimulation` two genuinely different random
streams. -/
theorem C4_default_seed_counterexample :
    runMonteCarloSimulation ⟨100000, 0.07, 20000, 0.05, 0.025, 30⟩ 1 none 0 =
        [runSimulation ⟨100000, 0.07, 20000, 0.05, 0.025, 30⟩
          (mulberryStream 0)] ∧
      runMonteCarloSimulation ⟨100000, 0.07, 20000, 0.05, 0.025, 30⟩ 1 none 1 =
        [runSimulation ⟨100000, 0.07, 20000, 0.05, 0.025, 30⟩
          (mulberryStream 1)] ∧
      mulberryStream 0 0 ≠ mulberryStream 1 0 := by
  refine ⟨rfl, rfl, ?_⟩
  have hc : ((W32 : ℕ) : ℝ) ≠ 0 := by norm_num [W32]
  simp only [mulberryStream, ne_eq]
  intro h
  rw [div_eq_div_iff hc hc] at h
  have h2 : mulberryNat 0 0 = mulberryNat 1 0 :=
    Nat.cast_injective (mul_right_cancel₀ hc h)
  exact absurd h2 (by decide)

/-! ## C5: the entry points perform no input validation -/

/-- C5 counterexample: on the invalid parameter set `years = 0`,
`startingAssets = -100`, `initialContribution = -5` the entry point
`runSimulation` does not reject: it returns a normal `SimulationResult`
(empty year list, `finalBalance = startingAssets`), so no error is ever
surfaced to the caller. -/
theorem C5_no_validation_counterexample :
    runSimulation ⟨-100, 0.07, -5, 0, 0, 0⟩ (fun _ => 0) =
      ⟨[], -100, 0, 0⟩ := by
  simp [runSimulation, generateRandomizedReturns, adjustedLogReturns,
    rawLogReturns, simLoop]

/-- C5 (amended): the entry points validate nothing; every parameter set,
including `years = 0` and negative `startingAssets`/`initialContribution`,
is processed silently — `years = 0` yields an empty simulation with
`finalBalance = startingAssets` and zero totals. -/
theorem C5_amended_silent_empty (params : SimulationParams)
    (random : ℕ → ℝ) (h : params.years = 0) :
    runSimulation params random = ⟨[], params.startingAssets, 0, 0⟩ := by
  simp [runSimulation, generateRandomizedReturns, adjustedLogReturns,
    rawLogReturns, h, simLoop]

/-- Witness for C5 (amended) at a concrete invalid parameter set. -/
theorem C5_amended_silent_empty_witness :
    (⟨-100, 0.07, -5, 0, 0.02, 0⟩ : SimulationParams).years = 0 ∧
      runSimulation ⟨-100, 0.07, -5, 0, 0.02, 0⟩ (fun _ => 0) =
        ⟨[], (⟨-100, 0.07, -5, 0, 0.02, 0⟩ : SimulationParams).startingAssets,
          0, 0⟩ :=
  ⟨rfl, C5_amended_silent_empty _ _ rfl⟩

/-! ## C6: balance conservation -/

/-- The year loop preserves
`balance - totalContributions - totalGrowth`: every year adds the
contribution and the growth both to the balance and to the respective
accumulator. -/
lemma simLoop_conservation (cgr : ℝ) (ps : List (ℝ × ℝ)) (yr : ℕ)
    (st : SimState) :
    (simLoop cgr ps yr st).1.balance
        - (simLoop cgr ps yr st).1.totalContributions
        - (simLoop cgr ps yr st).1.totalGrowth
      = st.balance - st.totalContributions - st.totalGrowth := by
  induction ps generalizing yr st with
  | nil => simp [simLoop]
  | cons p rest ih =>
      simp only [simLoop]
      rw [ih]
      simp [simStep]
      ring

/-- C6: for every `SimulationParams` and every random source, the result of
`runSimulation` satisfies
`finalBalance = startingAssets + totalContributions + totalGrowth`
exactly in real arithmetic. -/
theorem C6_balance_conservation (params : SimulationParams)
    (random : ℕ → ℝ) :
    (runSimulation params random).finalBalance =
      params.startingAssets
        + (runSimulation params random).totalContributions
        + (runSimulation params random).totalGrowth := by
  have h := simLoop_conservation params.contributionGrowthRate
    ((generateRandomizedReturns params.annualReturn params.years random
        0.30).zip
      (generateRandomizedInflation params.inflationRate params.years
        (fun k => random (2 * params.years + k)) 0.015)) 0
    ⟨params.startingAssets, params.initialContribution, 0, 0, 1⟩
  simp only [runSimulation]
  simp only at h
  linarith [h]

/-! ## C9: a single-year simulation forces the sampled return to the target -/

lemma length_adjustedLogReturns (a : ℝ) (y : ℕ) (rdm : ℕ → ℝ) (v : ℝ) :
    (adjustedLogReturns a y rdm v).length = y := by
  simp [adjustedLogReturns, length_rawLogReturns]

lemma length_generateRandomizedReturns (a : ℝ) (y : ℕ) (rdm : ℕ → ℝ)
    (v : ℝ) : (generateRandomizedReturns a y rdm v).length = y := by
  simp [generateRandomizedReturns, length_adjustedLogReturns]

lemma length_adjustedLogInflations (i : ℝ) (y : ℕ) (rdm : ℕ → ℝ) (v : ℝ) :
    (adjustedLogInflations i y rdm v).length = y := by
  simp [adjustedLogInflations, length_rawLogInflations]

lemma length_generateRandomizedInflation (i : ℝ) (y : ℕ) (rdm : ℕ → ℝ)
    (v : ℝ) : (generateRandomizedInflation i y rdm v).length = y := by
  by_cases h : i = 0 <;>
    simp [generateRandomizedInflation, h, length_adjustedLogInflations]

/-- With a single period the adjustment cancels the noise entirely:
the sampler returns exactly `[annualReturn]`. -/
lemma generateRandomizedReturns_one (a v : ℝ) (rdm : ℕ → ℝ)
    (ha : -1 < a) : generateRandomizedReturns a 1 rdm v = [a] := by
  have h0 : (0 : ℝ) < 1 + a := by linarith
  obtain ⟨x, hx⟩ :=
    List.length_eq_one.mp (length_adjustedLogReturns a 1 rdm v)
  have hsum : (adjustedLogReturns a 1 rdm v).sum =
      Real.log (1 + a) * ((1 : ℕ) : ℝ) :=
    adjusted_sum (Real.log (1 + a)) 1 (rawLogReturns a 1 rdm v) one_pos
      (length_rawLogReturns _ _ _ _)
  have hx' : x = Real.log (1 + a) := by
    rw [hx] at hsum
    simpa using hsum
  simp only [generateRandomizedReturns, hx, hx', List.map_cons, List.map_nil]
  rw [Real.exp_log h0]
  congr 1
  ring

/-- C9: for every parameter set with `years = 1` and every random source,
the single sampled return equals `annualReturn` exactly, and the result has
exactly one period with
`finalBalance = (startingAssets + initialContribution) * (1 + annualReturn)`. -/
theorem C9_single_year (params : SimulationParams) (random : ℕ → ℝ)
    (h1 : params.years = 1) (ha : -1 < params.annualReturn) :
    generateRandomizedReturns params.annualReturn params.years random 0.30 =
        [params.annualReturn] ∧
      (runSimulation params random).yearlyData.length = 1 ∧
      (runSimulation params random).finalBalance =
        (params.startingAssets + params.initialContribution)
          * (1 + params.annualReturn) := by
  have hret : generateRandomizedReturns params.annualReturn params.years
      random 0.30 = [params.annualReturn] := by
    rw [h1]
    exact generateRandomizedReturns_one _ _ _ ha
  obtain ⟨w, hw⟩ := List.length_eq_one.mp
    (show (generateRandomizedInflation params.inflationRate params.years
        (fun k => random (2 * params.years + k)) 0.015).length = 1 by
      rw [length_generateRandomizedInflation, h1])
  refine ⟨hret, ?_, ?_⟩
  · simp [runSimulation, hret, hw, simLoop, simStep]
  · simp [runSimulation, hret, hw, simLoop, simStep]
    ring

/-- Witness for C9 at a concrete one-year parameter set. -/
theorem C9_single_year_witness :
    (⟨100, 0.07, 10, 0.05, 0.02, 1⟩ : SimulationParams).years = 1 ∧
      (-1 : ℝ) < (⟨100, 0.07, 10, 0.05, 0.02, 1⟩ : SimulationParams).annualReturn ∧
      (generateRandomizedReturns
          (⟨100, 0.07, 10, 0.05, 0.02, 1⟩ : SimulationParams).annualReturn
          (⟨100, 0.07, 10, 0.05, 0.02, 1⟩ : SimulationParams).years
          (fun _ => 1) 0.30 =
          [(⟨100, 0.07, 10, 0.05, 0.02, 1⟩ : SimulationParams).annualReturn] ∧
        (runSimulation ⟨100, 0.07, 10, 0.05, 0.02, 1⟩
            (fun _ => 1)).yearlyData.length = 1 ∧
        (runSimulation ⟨100, 0.07, 10, 0.05, 0.02, 1⟩
            (fun _ => 1)).finalBalance =
          ((⟨100, 0.07, 10, 0.05, 0.02, 1⟩ : SimulationParams).startingAssets
              + (⟨100, 0.07, 10, 0.05, 0.02, 1⟩ : SimulationParams).initialContribution)
            * (1 + (⟨100, 0.07, 10, 0.05, 0.02, 1⟩ : SimulationParams).annualReturn)) :=
  ⟨rfl, by norm_num,
    C9_single_year ⟨100, 0.07, 10, 0.05, 0.02, 1⟩ (fun _ => 1) rfl
      (by norm_num)⟩

/-! ## C8: the inflation floor and its documented bias -/

lemma exp_le_one_add_max (x : ℝ) :
    Real.exp x ≤ 1 + max 0 (Real.exp x - 1) := by
  have h := le_max_right (0 : ℝ) (Real.exp x - 1)
  linarith

/-- Flooring each rate at 0 can only increase the compounded product. -/
lemma exp_prod_le_floor_prod (l : List ℝ) :
    (l.map Real.exp).prod ≤
      (l.map (fun x => 1 + max 0 (Real.exp x - 1))).prod := by
  induction l with
  | nil => simp
  | cons a tl ih =>
      simp only [List.map_cons, List.prod_cons]
      have h1 := exp_le_one_add_max a
      have h2 : (0 : ℝ) ≤ (tl.map Real.exp).prod :=
        (list_prod_map_exp_pos tl).le
      have h3 : (0 : ℝ) ≤ 1 + max 0 (Real.exp a - 1) := by
        have := le_max_left (0 : ℝ) (Real.exp a - 1)
        linarith
      exact mul_le_mul h1 ih h2 h3

/-- C8: every rate produced by `generateRandomizedInflation` is `≥ 0`;
when no element is actually floored (every raw `exp(L_i) - 1 ≥ 0`) the
compounded product equals `(1 + inflationRate) ^ years` exactly; and the
realized compounded product always deviates in the direction
`≥ (1 + inflationRate) ^ years` (in particular when flooring occurs). -/
theorem C8_inflation_floor (inflationRate volatility : ℝ) (years : ℕ)
    (random : ℕ → ℝ) (hy : 0 < years) (hi : -1 < inflationRate) :
    (∀ r ∈ generateRandomizedInflation inflationRate years random volatility,
        0 ≤ r) ∧
      ((∀ L ∈ adjustedLogInflations inflationRate years random volatility,
          0 ≤ Real.exp L - 1) →
        ((generateRandomizedInflation inflationRate years random
              volatility).map (fun r => 1 + r)).prod =
          (1 + inflationRate) ^ years) ∧
      (1 + inflationRate) ^ years ≤
        ((generateRandomizedInflation inflationRate years random
            volatility).map (fun r => 1 + r)).prod := by
  have h0 : (0 : ℝ) < 1 + inflationRate := by linarith
  by_cases hz : inflationRate = 0
  · subst hz
    refine ⟨?_, ?_, ?_⟩
    · intro r hr
      simp only [generateRandomizedInflation, if_pos rfl] at hr
      rw [List.eq_of_mem_replicate hr]
    · intro _
      simp [generateRandomizedInflation, List.map_replicate,
        List.prod_replicate]
    · simp [generateRandomizedInflation, List.map_replicate,
        List.prod_replicate]
  · have hkey := adjusted_prod (Real.log (1 + inflationRate)) years
      (rawLogInflations inflationRate years random volatility) hy
      (length_rawLogInflations _ _ _ _)
    rw [Real.exp_log h0] at hkey
    have hcomp : ((adjustedLogInflations inflationRate years random
            volatility).map (fun logI => max 0 (Real.exp logI - 1))).map
          (fun r => 1 + r) =
        (adjustedLogInflations inflationRate years random volatility).map
          (fun L => 1 + max 0 (Real.exp L - 1)) := by
      rw [List.map_map]
      rfl
    have hexp : ((adjustedLogInflations inflationRate years random
          volatility).map Real.exp).prod = (1 + inflationRate) ^ years := by
      rw [list_prod_map_exp]
      have hs : (adjustedLogInflations inflationRate years random
            volatility).sum = Real.log (1 + inflationRate) * years :=
        adjusted_sum _ _ _ hy (length_rawLogInflations _ _ _ _)
      rw [hs, mul_comm, Real.exp_nat_mul, Real.exp_log h0]
    refine ⟨?_, ?_, ?_⟩
    · intro r hr
      simp only [generateRandomizedInflation, if_neg hz,
        List.mem_map] at hr
      obtain ⟨L, -, rfl⟩ := hr
      exact le_max_left _ _
    · intro hnf
      have hmap : (adjustedLogInflations inflationRate years random
            volatility).map (fun L => 1 + max 0 (Real.exp L - 1)) =
          (adjustedLogInflations inflationRate years random volatility).map
            (fun L => 1 + (Real.exp L - 1)) := by
        apply List.map_congr_left
        intro L hL
        rw [max_eq_right (hnf L hL)]
      simp only [generateRandomizedInflation, if_neg hz]
      rw [hcomp, hmap]
      exact hkey
    · simp only [generateRandomizedInflation, if_neg hz]
      rw [hcomp, ← hexp]
      exact exp_prod_le_floor_prod _

/-- Witness for C8 at `inflationRate = 0.02`, `years = 1`, the constant-one
random source and the source's default inflation volatility `0.015`. -/
theorem C8_inflation_floor_witness :
    0 < 1 ∧ (-1 : ℝ) < 0.02 ∧
      ((∀ r ∈ generateRandomizedInflation 0.02 1 (fun _ => 1) 0.015,
          0 ≤ r) ∧
        ((∀ L ∈ adjustedLogInflations 0.02 1 (fun _ => 1) 0.015,
            0 ≤ Real.exp L - 1) →
          ((generateRandomizedInflation 0.02 1 (fun _ => 1) 0.015).map
              (fun r => 1 + r)).prod = (1 + 0.02 : ℝ) ^ 1) ∧
        (1 + 0.02 : ℝ) ^ 1 ≤
          ((generateRandomizedInflation 0.02 1 (fun _ => 1) 0.015).map
              (fun r => 1 + r)).prod) :=
  ⟨by decide, by norm_num,
    C8_inflation_floor 0.02 0.015 1 (fun _ => 1) (by decide) (by norm_num)⟩

/-! ## C7 / C10: the percentile aggregator -/

lemma length_sortedYearBalances (sims : List SimulationResult) (b : Bool)
    (t : ℕ) : (sortedYearBalances sims b t).length = sims.length := by
  simp [sortedYearBalances, List.length_insertionSort]

lemma sorted_sortedYearBalances (sims : List SimulationResult) (b : Bool)
    (t : ℕ) : (sortedYearBalances sims b t).Sorted (· ≤ ·) :=
  List.sorted_insertionSort _ _

/-- In an ascending-sorted list, entries at increasing indices increase. -/
lemma sorted_getD_mono {l : List ℝ} (hs : l.Sorted (· ≤ ·)) {i j : ℕ}
    (hij : i ≤ j) (hj : j < l.length) : l.getD i 0 ≤ l.getD j 0 := by
  have hi : i < l.length := lt_of_le_of_lt hij hj
  rw [List.getD_eq_getElem _ _ hi, List.getD_eq_getElem _ _ hj]
  have h := hs.rel_get_of_le (a := ⟨i, hi⟩) (b := ⟨j, hj⟩) hij
  simpa using h

/-- The nearest-rank index `min (floor(p/100 * M)) (M-1)` is monotone in
the requested percentile. -/
lemma percentileIndex_mono (p q len : ℕ) (hpq : p ≤ q) :
    min (p * len / 100) (len - 1) ≤ min (q * len / 100) (len - 1) :=
  min_le_min (Nat.div_le_div_right (Nat.mul_le_mul_right _ hpq)) le_rfl

lemma percentileIndex_lt (p len : ℕ) (hlen : 0 < len) :
    min (p * len / 100) (len - 1) < len :=
  lt_of_le_of_lt (min_le_right _ _) (Nat.sub_lt hlen one_pos)

lemma percentileSeries_getD (sims : List SimulationResult) (b : Bool)
    (years p t : ℕ) (ht : t < years) :
    (percentileSeries sims b years p).getD t 0 =
      (sortedYearBalances sims b t).getD
        (min (p * (sortedYearBalances sims b t).length / 100)
          ((sortedYearBalances sims b t).length - 1)) 0 := by
  have ht' : t < ((List.range years).map (fun year =>
      let sorted := sortedYearBalances sims b year
      sorted.getD (min (p * sorted.length / 100) (sorted.length - 1))
        0)).length := by
    simpa using ht
  simp only [percentileSeries]
  rw [List.getD_eq_getElem _ _ ht']
  simp

/-- Pointwise rank ordering of the percentile series. -/
lemma percentileSeries_mono (sims : List SimulationResult) (b : Bool)
    (years p q t : ℕ) (hpq : p ≤ q) (ht : t < years) (hne : sims ≠ []) :
    (percentileSeries sims b years p).getD t 0 ≤
      (percentileSeries sims b years q).getD t 0 := by
  rw [percentileSeries_getD _ _ _ _ _ ht, percentileSeries_getD _ _ _ _ _ ht]
  have hlen : 0 < (sortedYearBalances sims b t).length := by
    rw [length_sortedYearBalances]
    exact List.length_pos.mpr hne
  exact sorted_getD_mono (sorted_sortedYearBalances sims b t)
    (percentileIndex_mono p q _ hpq) (percentileIndex_lt q _ hlen)

/-- C7: for every non-empty result list and the canonical percentile set
{10, 25, 50, 75, 90}, the series returned by `calculatePercentiles` are
ordered pointwise by rank at every period `t`, in both the nominal and the
real (`useRealValues`) views.  The hypothesis `hu` restricts to inputs on
which the source performs only in-range accesses (paths of equal length,
as produced by one Monte-Carlo run). -/
theorem C7_percentile_ordering (s0 : SimulationResult)
    (rest : List SimulationResult) (b : Bool) (t : ℕ)
    (ht : t < s0.yearlyData.length)
    (hu : ∀ s ∈ s0 :: rest, s.yearlyData.length = s0.yearlyData.length) :
    calculatePercentiles (s0 :: rest) [10, 25, 50, 75, 90] b =
        some ([10, 25, 50, 75, 90].map (fun p =>
          (p, percentileSeries (s0 :: rest) b s0.yearlyData.length p))) ∧
      (percentileSeries (s0 :: rest) b s0.yearlyData.length 10).getD t 0 ≤
        (percentileSeries (s0 :: rest) b s0.yearlyData.length 25).getD t 0 ∧
      (percentileSeries (s0 :: rest) b s0.yearlyData.length 25).getD t 0 ≤
        (percentileSeries (s0 :: rest) b s0.yearlyData.length 50).getD t 0 ∧
      (percentileSeries (s0 :: rest) b s0.yearlyData.length 50).getD t 0 ≤
        (percentileSeries (s0 :: rest) b s0.yearlyData.length 75).getD t 0 ∧
      (percentileSeries (s0 :: rest) b s0.yearlyData.length 75).getD t 0 ≤
        (percentileSeries (s0 :: rest) b s0.yearlyData.length 90).getD t 0 := by
  refine ⟨rfl, ?_, ?_, ?_, ?_⟩ <;>
    exact percentileSeries_mono _ _ _ _ _ _ (by norm_num) ht
      (List.cons_ne_nil _ _)

/-- Witness for C7 on a concrete one-path, one-year input. -/
theorem C7_percentile_ordering_witness :
    0 < (SimulationResult.mk [⟨1, 0, 0, 0, 0, 0, 5, 1, 5⟩] 5 0 0).yearlyData.length ∧
      (∀ s ∈ [SimulationResult.mk [⟨1, 0, 0, 0, 0, 0, 5, 1, 5⟩] 5 0 0],
        s.yearlyData.length =
          (SimulationResult.mk [⟨1, 0, 0, 0, 0, 0, 5, 1, 5⟩] 5 0 0).yearlyData.length) ∧
      (calculatePercentiles [SimulationResult.mk [⟨1, 0, 0, 0, 0, 0, 5, 1, 5⟩] 5 0 0]
          [10, 25, 50, 75, 90] false =
          some ([10, 25, 50, 75, 90].map (fun p =>
            (p, percentileSeries
              [SimulationResult.mk [⟨1, 0, 0, 0, 0, 0, 5, 1, 5⟩] 5 0 0] false
              (SimulationResult.mk [⟨1, 0, 0, 0, 0, 0, 5, 1, 5⟩] 5 0 0).yearlyData.length
              p))) ∧
        (percentileSeries [SimulationResult.mk [⟨1, 0, 0, 0, 0, 0, 5, 1, 5⟩] 5 0 0]
            false 1 10).getD 0 0 ≤
          (percentileSeries [SimulationResult.mk [⟨1, 0, 0, 0, 0, 0, 5, 1, 5⟩] 5 0 0]
            false 1 25).getD 0 0 ∧
        (percentileSeries [SimulationResult.mk [⟨1, 0, 0, 0, 0, 0, 5, 1, 5⟩] 5 0 0]
            false 1 25).getD 0 0 ≤
          (percentileSeries [SimulationResult.mk [⟨1, 0, 0, 0, 0, 0, 5, 1, 5⟩] 5 0 0]
            false 1 50).getD 0 0 ∧
        (percentileSeries [SimulationResult.mk [⟨1, 0, 0, 0, 0, 0, 5, 1, 5⟩] 5 0 0]
            false 1 50).getD 0 0 ≤
          (percentileSeries [SimulationResult.mk [⟨1, 0, 0, 0, 0, 0, 5, 1, 5⟩] 5 0 0]
            false 1 75).getD 0 0 ∧
        (percentileSeries [SimulationResult.mk [⟨1, 0, 0, 0, 0, 0, 5, 1, 5⟩] 5 0 0]
            false 1 75).getD 0 0 ≤
          (percentileSeries [SimulationResult.mk [⟨1, 0, 0, 0, 0, 0, 5, 1, 5⟩] 5 0 0]
            false 1 90).getD 0 0) :=
  ⟨by decide, by simp,
    C7_percentile_ordering (SimulationResult.mk [⟨1, 0, 0, 0, 0, 0, 5, 1, 5⟩] 5 0 0)
      [] false 0 (by decide) (by simp)⟩

/-- C10: `calculatePercentiles` is partial at the public interface: on the
empty input it is undefined (`none`, modelling the thrown access
`simulations[0].yearlyData`); on every non-empty input whose paths all
have the same period count, every returned series has length equal to that
period count. -/
theorem C10_percentiles_partial (ps : List ℕ) (b : Bool)
    (s0 : SimulationResult) (rest : List SimulationResult)
    (hu : ∀ s ∈ rest, s.yearlyData.length = s0.yearlyData.length) :
    calculatePercentiles [] ps b = none ∧
      ∃ out, calculatePercentiles (s0 :: rest) ps b = some out ∧
        ∀ pr ∈ out, pr.2.length = s0.yearlyData.length := by
  refine ⟨rfl, _, rfl, ?_⟩
  intro pr hpr
  simp only [List.mem_map] at hpr
  obtain ⟨p, -, rfl⟩ := hpr
  simp [percentileSeries]

/-- Witness for C10 on a concrete one-path input. -/
theorem C10_percentiles_partial_witness :
    (∀ s ∈ ([] : List SimulationResult),
        s.yearlyData.length =
          (SimulationResult.mk [⟨1, 2, 3, 0, 0, 1, 6, 1, 6⟩] 6 3 1).yearlyData.length) ∧
      (calculatePercentiles [] [50] true = none ∧
        ∃ out, calculatePercentiles
            [SimulationResult.mk [⟨1, 2, 3, 0, 0, 1, 6, 1, 6⟩] 6 3 1] [50] true =
            some out ∧
          ∀ pr ∈ out, pr.2.length =
            (SimulationResult.mk [⟨1, 2, 3, 0, 0, 1, 6, 1, 6⟩] 6 3 1).yearlyData.length) :=
  ⟨by simp,
    C10_percentiles_partial [50] true
      (SimulationResult.mk [⟨1, 2, 3, 0, 0, 1, 6, 1, 6⟩] 6 3 1) [] (by simp)⟩

end FireCalc
